import Mathlib

/-!
Verification of the knight-move path enumerator (`src/knight_move.py`,
`src/path_check.py`, `src/path_create.py`, `src/sequence_check.py`,
`src/sequence_create.py`) against its specification.

Modelling choices:
* A Python coordinate tuple of two ints is a `Coord := Int × Int`.
* The dynamically-typed values flowing through the path-construction
  module (tuples, lists, numbers and anything else) are embedded as the
  inductive type `PyVal`.  Python floats only matter to the shape
  validators (`isinstance(x, (int, float))`), never to any claim's
  arithmetic, so they are kept as an opaque atom `PyVal.float`.
* Fallible Python code is embedded in `Except Err`.  The spec's error
  taxonomy (§7) maps onto the exceptions actually raised by the source:
  `Err.invalidInputShape` is the `ValueError` of `check_and_convert`,
  `Err.invalidCapConfiguration` is the `AssertionError` of the cap
  asserts in `get_all_paths` / `get_all_sequences`, `Err.indexError` is
  the `IndexError` of `t[-1]` on an empty list, and `Err.typeErr`
  stands for the `TypeError` of unpacking a value that is not a pair of
  integers (unreachable on validated integer input).
-/

/-- A coordinate: an ordered pair of integers (spec §3). -/
abbrev Coord := Int × Int

/-- Embedding of the Python runtime values handled by the
path-construction module: integers, floats (opaque: only their shape
matters), tuples, lists, and any other value. -/
inductive PyVal : Type where
  | int (n : Int)
  | float
  | tuple (xs : List PyVal)
  | list (xs : List PyVal)
  | other

/-- The exceptions raised by the source, named after the spec's
error taxonomy (§7) where it has a name for them. -/
inductive Err : Type where
  | invalidInputShape
  | invalidCapConfiguration
  | indexError
  | typeErr
deriving DecidableEq, Repr

/-- Encode a coordinate as the Python tuple `(i, j)`. -/
def encCoord (c : Coord) : PyVal := .tuple [.int c.1, .int c.2]

/-- Encode a path (Python list of coordinate tuples). -/
def encPath (p : List Coord) : PyVal := .list (p.map encCoord)

/-- Encode a generation (Python list of lists of coordinate tuples). -/
def encGen (g : List (List Coord)) : PyVal := .list (g.map encPath)

/-- Decode a Python value as a coordinate tuple of two integers. -/
def decodeCoord : PyVal → Option Coord
  | .tuple [.int x, .int y] => some (x, y)
  | _ => none

/-- Decode a Python value as a list of integer coordinate tuples. -/
def decodePath : PyVal → Option (List Coord)
  | .list xs => xs.mapM decodeCoord
  | _ => none

/-- Decode a Python value as a list of lists of integer coordinate
tuples. -/
def decodeGen : PyVal → Option (List (List Coord))
  | .list xs => xs.mapM decodePath
  | _ => none

namespace knight_move

/-- The fixed list of 8 knight-move offsets, in the order hard-coded in
`src/knight_move.py` (moves 1-8). -/
def knight_moves : List (Int × Int) :=
  [(2, 1), (2, -1), (-2, 1), (-2, -1), (1, 2), (1, -2), (-1, 2), (-1, -2)]

/-- Embedding of `all_knight_moves` from `src/knight_move.py`: apply every offset to
the initial position, in offset order, with no filtering. -/
def all_knight_moves (x_i y_i : Int) : List Coord :=
  knight_moves.map (fun d => (x_i + d.1, y_i + d.2))

end knight_move

namespace path_check

/-- Embedding of `check_inside_bounds` from `src/path_check.py`: the loop returns
`False` at the first coordinate outside the inclusive rectangle, else
`True`. -/
def check_inside_bounds (path : List Coord) (x_min x_max y_min y_max : Int) : Bool :=
  path.all (fun c =>
    !(decide (c.1 < x_min) || decide (c.1 > x_max) ||
      decide (c.2 < y_min) || decide (c.2 > y_max)))

/-- Embedding of `check_in_avoided_coordinate` from `src/path_check.py`. -/
def check_in_avoided_coordinate (path : List Coord)
    (list_of_coordinates : List Coord) : Bool :=
  path.any (fun c => list_of_coordinates.contains c)

/-- Embedding of `count_path_hit_location_list` from `src/path_check.py`:
`sum([1 for coordinate in path if coordinate in location_list])`. -/
def count_path_hit_location_list (path : List Coord)
    (location_list : List Coord) : Nat :=
  (path.filter (fun c => location_list.contains c)).length

end path_check

namespace path_create

/-- Embedding of `is_coordinate_tuple` from `src/path_create.py`: a tuple of exactly
two values, each an `int` or a `float`. -/
def is_coordinate_tuple : PyVal → Bool
  | .tuple xs => xs.length == 2 &&
      xs.all (fun x => match x with
                       | .int _ => true
                       | .float => true
                       | _ => false)
  | _ => false

/-- Embedding of `is_list_of_coordinate_tuples` from `src/path_create.py`. -/
def is_list_of_coordinate_tuples : PyVal → Bool
  | .list xs => xs.all is_coordinate_tuple
  | _ => false

/-- Embedding of `is_list_of_lists_of_coordinate_tuples` from `src/path_create.py`. -/
def is_list_of_lists_of_coordinate_tuples : PyVal → Bool
  | .list xs => xs.all is_list_of_coordinate_tuples
  | _ => false

/-- Embedding of `check_and_convert` from `src/path_create.py`: normalize a
coordinate, a flat list of coordinates, or a list of lists of
coordinates, in that order of precedence; anything else raises
`ValueError` (the spec's `InvalidInputShape`). -/
def check_and_convert (element : PyVal) : Except Err PyVal :=
  if is_coordinate_tuple element then
    Except.ok (.list [.list [element]])
  else if is_list_of_coordinate_tuples element then
    Except.ok (.list [element])
  else if is_list_of_lists_of_coordinate_tuples element then
    Except.ok element
  else
    Except.error Err.invalidInputShape

/-- Embedding of `x, y = t[-1]` in `add_step`: `t[-1]` on an empty list raises
`IndexError`; unpacking anything that is not a pair of integers is
outside the integer-valued model and maps to `Err.typeErr`
(the validated inputs the claims quantify over never reach it). -/
def lastCoordOf (ts : List PyVal) : Except Err Coord :=
  match ts.getLast? with
  | some (.tuple [.int x, .int y]) => Except.ok (x, y)
  | some _ => Except.error Err.typeErr
  | none => Except.error Err.indexError

/-- Body of the outer loop of `add_step` for one path `t`: read the
last coordinate and append every knight move to `t`, in move order. -/
def extendOne (t : PyVal) : Except Err (List PyVal) :=
  match t with
  | .list ts => do
      let c ← lastCoordOf ts
      Except.ok ((knight_move.all_knight_moves c.1 c.2).map
        (fun mn => PyVal.list (ts ++ [encCoord mn])))
  | _ => Except.error Err.typeErr

/-- Embedding of `add_step` from `src/path_create.py`: normalize the input with
`check_and_convert`, then concatenate the 8 one-move extensions of
every path, grouped by input path. -/
def add_step (l_in : PyVal) : Except Err PyVal := do
  let l ← check_and_convert l_in
  match l with
  | .list paths => do
      let outs ← paths.mapM extendOne
      Except.ok (.list outs.flatten)
  | _ => Except.error Err.typeErr

/-- The per-step list comprehension of `get_all_paths`, iterated
`n_steps` times:
`paths = [p for p in add_step(paths) if keep(p)]`. -/
def run_steps (keep : PyVal → Bool) : Nat → PyVal → Except Err PyVal
  | 0, v => Except.ok v
  | n + 1, v => do
      let ext ← add_step v
      match ext with
      | .list xs => run_steps keep n (.list (xs.filter keep))
      | _ => Except.error Err.typeErr

/-- Embedding of `get_all_paths` from `src/path_create.py`.

* `location_list` and `max_hit` keep their `Optional` types; the
  source's first assert (`location_list` must be a list of coordinate
  tuples) always holds under the typed `Option (List Coord)` embedding,
  and its second assert (`max_hit` positive integer) is `0 < max_hit`,
  an `AssertionError` mapped to `Err.invalidCapConfiguration`.
* The loop state starts as the Python value `[(x, y)]` — a single
  flat path, `encPath [(x, y)]`, exactly as in the source — and the
  final state is returned unchanged, so with `n_steps = 0` the bare
  path (not a one-path generation) is returned.
* The two comprehension branches of the source are merged into one
  `keep` predicate whose hit-count conjunct is guarded by the same
  `check_path_hit_count_cond`; the user filter receives the decoded
  path (it is only ever applied to well-formed paths). -/
def get_all_paths (x y : Int) (n_steps : Nat)
    (location_list : Option (List Coord)) (max_hit : Option Int)
    (filter : Option (List Coord → Bool)) : Except Err PyVal := do
  let check_path_hit_count_cond := location_list.isSome && max_hit.isSome
  if check_path_hit_count_cond then
    if (0 : Int) < max_hit.getD 0 then pure ()
    else Except.error Err.invalidCapConfiguration
  else pure ()
  let paths : List Coord := [(x, y)]
  let filter_cond : List Coord → Bool := filter.getD (fun _ => true)
  if filter_cond paths then
    let keep : PyVal → Bool := fun pv =>
      match decodePath pv with
      | some p => filter_cond p &&
          (if check_path_hit_count_cond then
            decide ((path_check.count_path_hit_location_list p
              (location_list.getD []) : Int) ≤ max_hit.getD 0)
          else true)
      | none => false
    run_steps keep n_steps (encPath paths)
  else
    Except.ok (PyVal.list [])

end path_create

namespace sequence_check

/-- Embedding of `check_inside_bounds` from `src/sequence_check.py` (verbatim twin
of the path module's). -/
def check_inside_bounds (sequence : List Coord) (x_min x_max y_min y_max : Int) : Bool :=
  sequence.all (fun c =>
    !(decide (c.1 < x_min) || decide (c.1 > x_max) ||
      decide (c.2 < y_min) || decide (c.2 > y_max)))

/-- Embedding of `check_in_avoided_coordinate` from `src/sequence_check.py`. -/
def check_in_avoided_coordinate (sequence : List Coord)
    (list_of_coordinates : List Coord) : Bool :=
  sequence.any (fun c => list_of_coordinates.contains c)

/-- Embedding of `count_sequence_hit_location_list` from `src/sequence_check.py`. -/
def count_sequence_hit_location_list (sequence : List Coord)
    (location_list : List Coord) : Nat :=
  (sequence.filter (fun c => location_list.contains c)).length

end sequence_check

namespace sequence_create

/-- Embedding of `is_coordinate_tuple` from `src/sequence_create.py`. -/
def is_coordinate_tuple : PyVal → Bool
  | .tuple xs => xs.length == 2 &&
      xs.all (fun x => match x with
                       | .int _ => true
                       | .float => true
                       | _ => false)
  | _ => false

/-- Embedding of `is_list_of_coordinate_tuples` from `src/sequence_create.py`. -/
def is_list_of_coordinate_tuples : PyVal → Bool
  | .list xs => xs.all is_coordinate_tuple
  | _ => false

/-- Embedding of `is_list_of_lists_of_coordinate_tuples` from
`src/sequence_create.py`. -/
def is_list_of_lists_of_coordinate_tuples : PyVal → Bool
  | .list xs => xs.all is_list_of_coordinate_tuples
  | _ => false

/-- Embedding of `check_and_convert` from `src/sequence_create.py`. -/
def check_and_convert (element : PyVal) : Except Err PyVal :=
  if is_coordinate_tuple element then
    Except.ok (.list [.list [element]])
  else if is_list_of_coordinate_tuples element then
    Except.ok (.list [element])
  else if is_list_of_lists_of_coordinate_tuples element then
    Except.ok element
  else
    Except.error Err.invalidInputShape

/-- Embedding of `t[-1]` with unpacking, as in the path module. -/
def lastCoordOf (ts : List PyVal) : Except Err Coord :=
  match ts.getLast? with
  | some (.tuple [.int x, .int y]) => Except.ok (x, y)
  | some _ => Except.error Err.typeErr
  | none => Except.error Err.indexError

/-- One-path loop body of `add_step` from `src/sequence_create.py`. -/
def extendOne (t : PyVal) : Except Err (List PyVal) :=
  match t with
  | .list ts => do
      let c ← lastCoordOf ts
      Except.ok ((knight_move.all_knight_moves c.1 c.2).map
        (fun mn => PyVal.list (ts ++ [encCoord mn])))
  | _ => Except.error Err.typeErr

/-- Embedding of `add_step` from `src/sequence_create.py`. -/
def add_step (l_in : PyVal) : Except Err PyVal := do
  let l ← check_and_convert l_in
  match l with
  | .list seqs => do
      let outs ← seqs.mapM extendOne
      Except.ok (.list outs.flatten)
  | _ => Except.error Err.typeErr

/-- The iterated per-step comprehension of `get_all_sequences`. -/
def run_steps (keep : PyVal → Bool) : Nat → PyVal → Except Err PyVal
  | 0, v => Except.ok v
  | n + 1, v => do
      let ext ← add_step v
      match ext with
      | .list xs => run_steps keep n (.list (xs.filter keep))
      | _ => Except.error Err.typeErr

/-- Embedding of `get_all_sequences` from `src/sequence_create.py`; same embedding
conventions as `path_create.get_all_paths`. -/
def get_all_sequences (x y : Int) (n_steps : Nat)
    (location_list : Option (List Coord)) (max_hit : Option Int)
    (filter : Option (List Coord → Bool)) : Except Err PyVal := do
  let check_sequence_hit_count_cond := location_list.isSome && max_hit.isSome
  if check_sequence_hit_count_cond then
    if (0 : Int) < max_hit.getD 0 then pure ()
    else Except.error Err.invalidCapConfiguration
  else pure ()
  let sequences : List Coord := [(x, y)]
  let filter_cond : List Coord → Bool := filter.getD (fun _ => true)
  if filter_cond sequences then
    let keep : PyVal → Bool := fun pv =>
      match decodePath pv with
      | some p => filter_cond p &&
          (if check_sequence_hit_count_cond then
            decide ((sequence_check.count_sequence_hit_location_list p
              (location_list.getD []) : Int) ≤ max_hit.getD 0)
          else true)
      | none => false
    run_steps keep n_steps (encPath sequences)
  else
    Except.ok (PyVal.list [])

end sequence_create

/-- Typed image of one `add_step` loop iteration on a decoded path:
append every knight move from the last coordinate, in move order
(empty for the empty path, which the source cannot process). -/
def extendPath (p : List Coord) : List (List Coord) :=
  match p.getLast? with
  | some c => (knight_move.all_knight_moves c.1 c.2).map (fun mn => p ++ [mn])
  | none => []

section Helpers

lemma ebind_ok {α β : Type} (a : α) (f : α → Except Err β) :
    (Except.ok a >>= f) = f a := rfl

lemma ebind_error {α β : Type} (e : Err) (f : α → Except Err β) :
    ((Except.error e : Except Err α) >>= f) = Except.error e := rfl

lemma epure {α : Type} (a : α) : (pure a : Except Err α) = Except.ok a := rfl

lemma encPath_flat (p : List Coord) :
    path_create.is_list_of_coordinate_tuples (encPath p) = true := by
  simp only [encPath, path_create.is_list_of_coordinate_tuples, List.all_eq_true]
  intro x hx
  obtain ⟨c, _, rfl⟩ := List.mem_map.mp hx
  rfl

lemma encGen_nested (g : List (List Coord)) :
    path_create.is_list_of_lists_of_coordinate_tuples (encGen g) = true := by
  simp only [encGen, path_create.is_list_of_lists_of_coordinate_tuples, List.all_eq_true]
  intro x hx
  obtain ⟨p, _, rfl⟩ := List.mem_map.mp hx
  exact encPath_flat p

lemma encGen_not_flat (p : List Coord) (t : List (List Coord)) :
    path_create.is_list_of_coordinate_tuples (encGen (p :: t)) = false := rfl

lemma cac_encPath (p : List Coord) :
    path_create.check_and_convert (encPath p) = Except.ok (encGen [p]) := by
  unfold path_create.check_and_convert
  rw [if_neg (by simp [encPath, path_create.is_coordinate_tuple]),
    if_pos (encPath_flat p)]
  rfl

lemma cac_encGen (p : List Coord) (t : List (List Coord)) :
    path_create.check_and_convert (encGen (p :: t)) = Except.ok (encGen (p :: t)) := by
  unfold path_create.check_and_convert
  rw [if_neg (by simp [encGen, path_create.is_coordinate_tuple]),
    if_neg (by simp [encGen_not_flat]),
    if_pos (encGen_nested (p :: t))]

lemma extendOne_encPath (p : List Coord) (c : Coord) (h : p.getLast? = some c) :
    path_create.extendOne (encPath p) = Except.ok ((extendPath p).map encPath) := by
  simp [path_create.extendOne, encPath, path_create.lastCoordOf,
    List.getLast?_map, h, extendPath, encCoord, List.map_map, Function.comp,
    ebind_ok]

lemma getLast?_of_ne_nil {p : List Coord} (h : p ≠ []) : ∃ c, p.getLast? = some c := by
  cases hq : p.getLast? with
  | some c => exact ⟨c, rfl⟩
  | none => exact absurd (List.getLast?_eq_none_iff.mp hq) h

lemma mapM_extendOne (g : List (List Coord)) (h : ∀ p ∈ g, p ≠ []) :
    (g.map encPath).mapM path_create.extendOne =
      Except.ok (g.map (fun p => (extendPath p).map encPath)) := by
  induction g with
  | nil => rfl
  | cons p t ih =>
    obtain ⟨c, hc⟩ := getLast?_of_ne_nil (h p (by simp))
    rw [List.map_cons, List.mapM_cons, extendOne_encPath p c hc,
      ih (fun q hq => h q (by simp [hq]))]
    rfl

lemma add_step_encGen (g : List (List Coord)) (hne : g ≠ [])
    (h : ∀ p ∈ g, p ≠ []) :
    path_create.add_step (encGen g) = Except.ok (encGen (g.flatMap extendPath)) := by
  obtain ⟨p, t, rfl⟩ : ∃ p t, g = p :: t := by
    cases g with
    | nil => exact absurd rfl hne
    | cons p t => exact ⟨p, t, rfl⟩
  unfold path_create.add_step
  rw [cac_encGen, ebind_ok]
  show ((p :: t).map encPath).mapM path_create.extendOne >>= _ = _
  rw [mapM_extendOne _ h, ebind_ok]
  simp [encGen, List.flatMap, List.map_flatten, List.map_map, Function.comp_def]

lemma run_steps_ok (keep : PyVal → Bool) :
    ∀ (n : Nat) (v w : PyVal),
      path_create.run_steps keep (n + 1) v = Except.ok w →
      ∃ xs, w = PyVal.list xs ∧ ∀ pv ∈ xs, keep pv = true := by
  intro n
  induction n with
  | zero =>
    intro v w h
    unfold path_create.run_steps at h
    cases hadd : path_create.add_step v with
    | error e =>
      rw [hadd, ebind_error] at h
      exact Except.noConfusion h
    | ok ext =>
      rw [hadd, ebind_ok] at h
      cases ext with
      | list xs =>
        have h' : Except.ok (PyVal.list (xs.filter keep)) = Except.ok w := h
        refine ⟨xs.filter keep, (Except.ok.inj h').symm, ?_⟩
        exact fun pv hpv => (List.mem_filter.mp hpv).2
      | int n => exact Except.noConfusion h
      | float => exact Except.noConfusion h
      | tuple xs => exact Except.noConfusion h
      | other => exact Except.noConfusion h
  | succ j ih =>
    intro v w h
    unfold path_create.run_steps at h
    cases hadd : path_create.add_step v with
    | error e =>
      rw [hadd, ebind_error] at h
      exact Except.noConfusion h
    | ok ext =>
      rw [hadd, ebind_ok] at h
      cases ext with
      | list xs => exact ih _ _ h
      | int n => exact Except.noConfusion h
      | float => exact Except.noConfusion h
      | tuple xs => exact Except.noConfusion h
      | other => exact Except.noConfusion h

end Helpers

lemma extendPath_length {p : List Coord} (hp : p ≠ []) :
    (extendPath p).length = 8 := by
  obtain ⟨c, hc⟩ := getLast?_of_ne_nil hp
  simp [extendPath, hc, knight_move.all_knight_moves, knight_move.knight_moves]

lemma flatMap_extendPath_length (g : List (List Coord))
    (hp : ∀ p ∈ g, p ≠ []) :
    (g.flatMap extendPath).length = 8 * g.length := by
  induction g with
  | nil => rfl
  | cons p t ih =>
    rw [List.flatMap_cons, List.length_append, extendPath_length (hp p (by simp)),
      ih (fun q hq => hp q (by simp [hq])), List.length_cons]
    ring

lemma mem_extendPath {p q : List Coord} (hq : q ∈ extendPath p) :
    q.length = p.length + 1 ∧ q.take p.length = p := by
  unfold extendPath at hq
  cases hc : p.getLast? with
  | none => rw [hc] at hq; exact absurd hq (List.not_mem_nil q)
  | some c =>
    rw [hc] at hq
    obtain ⟨mn, _, rfl⟩ := List.mem_map.mp hq
    refine ⟨by simp, ?_⟩
    exact List.take_left p [mn]

/-- Claim C1, counterexample: with `location_list` provided and
`max_hit` omitted, `get_all_paths` does not fail with the cap
configuration error — it returns a result (the full 8-path
generation from `(1, 1)` in one step). -/
theorem one_sided_cap_counterexample :
    path_create.get_all_paths 1 1 1 (some [(1, 1)]) none none =
      Except.ok (encGen [[(1, 1), (3, 2)], [(1, 1), (3, 0)],
        [(1, 1), (-1, 2)], [(1, 1), (-1, 0)], [(1, 1), (2, 3)],
        [(1, 1), (2, -1)], [(1, 1), (0, 3)], [(1, 1), (0, -1)]]) ∧
    path_create.get_all_paths 1 1 1 (some [(1, 1)]) none none ≠
      Except.error Err.invalidCapConfiguration := by
  constructor
  · rfl
  · intro h
    rw [show path_create.get_all_paths 1 1 1 (some [(1, 1)]) none none =
      Except.ok (encGen [[(1, 1), (3, 2)], [(1, 1), (3, 0)],
        [(1, 1), (-1, 2)], [(1, 1), (-1, 0)], [(1, 1), (2, 3)],
        [(1, 1), (2, -1)], [(1, 1), (0, 3)], [(1, 1), (0, -1)]]) from rfl] at h
    exact Except.noConfusion h

/-- Claim C1, amended: providing exactly one of `location_list` and
`max_hit` is not an error — the enumerator silently ignores the
one-sided cap configuration and behaves exactly as if neither were
given. -/
theorem one_sided_cap_ignored (x y : Int) (k : Nat) (T : List Coord) (m : Int)
    (f : Option (List Coord → Bool)) :
    path_create.get_all_paths x y k (some T) none f =
      path_create.get_all_paths x y k none none f ∧
    path_create.get_all_paths x y k none (some m) f =
      path_create.get_all_paths x y k none none f :=
  ⟨rfl, rfl⟩

/-- Claim C3 (code bug): at `n_steps = 0` the accepted starting
configuration is returned as the bare one-element path `[(x, y)]`
(here `encPath [(1, 1)]`), not as the one-path generation
`[[(x, y)]]` (`encGen [[(1, 1)]]`) promised by the spec and by the
function's own docstring and return annotation. -/
theorem zero_steps_returns_bare_path :
    path_create.get_all_paths 1 1 0 none none none =
      Except.ok (encPath [(1, 1)]) ∧
    encPath [(1, 1)] ≠ encGen [[(1, 1)]] := by
  refine ⟨rfl, ?_⟩
  simp [encPath, encGen, encCoord]

/-- The filter predicate of concrete scenario A: inside rows 1-4 and
columns 1-5, and not on a forbidden cell `(4,1)` or `(4,5)`. -/
def scenarioA_filter : List Coord → Bool := fun p =>
  path_check.check_inside_bounds p 1 4 1 5 &&
  !(path_check.check_in_avoided_coordinate p [(4, 1), (4, 5)])

/-- Claim C4: with bounds rows 1-4 / cols 1-5, forbidden cells
`{(4,1),(4,5)}`, start `(1,1)` and one step, the enumerator returns
exactly the two paths `[(1,1),(3,2)]` and `[(1,1),(2,3)]`, in the
order induced by the fixed move order. -/
theorem scenarioA_result :
    path_create.get_all_paths 1 1 1 none none (some scenarioA_filter) =
      Except.ok (encGen [[(1, 1), (3, 2)], [(1, 1), (2, 3)]]) := rfl

/-- Claim C6: `all_knight_moves` always returns exactly 8 coordinates,
in the fixed deterministic offset order, each result differing from
the input by one of the 8 offsets `(±2,±1)`, `(±1,±2)`, each offset
exactly once (the offset list has no duplicates), with no filtering. -/
theorem all_knight_moves_spec (x y : Int) :
    (knight_move.all_knight_moves x y).length = 8 ∧
    (knight_move.all_knight_moves x y).map (fun r => (r.1 - x, r.2 - y)) =
      knight_move.knight_moves ∧
    knight_move.knight_moves.Nodup := by
  refine ⟨rfl, ?_, by decide⟩
  simp [knight_move.all_knight_moves, knight_move.knight_moves]

/-- Claim C7: with `location_list` provided and a non-positive
`max_hit`, `get_all_paths` fails with the cap-configuration error
(the source's `AssertionError`) instead of enumerating. -/
theorem cap_nonpositive_err (x y : Int) (k : Nat) (T : List Coord) (m : Int)
    (f : Option (List Coord → Bool)) (hm : m ≤ 0) :
    path_create.get_all_paths x y k (some T) (some m) f =
      Except.error Err.invalidCapConfiguration := by
  unfold path_create.get_all_paths
  rw [show (Option.isSome (some T) && Option.isSome (some m)) = true from rfl]
  rw [if_pos rfl, show (some m).getD 0 = m from rfl,
    if_neg (by omega : ¬ (0 : Int) < m), ebind_error]

/-- Claim C7 witness: `max_hit = 0` with a target list concretely
raises the cap-configuration error. -/
theorem cap_nonpositive_err_witness :
    (0 : Int) ≤ 0 ∧
    path_create.get_all_paths 1 1 1 (some [(1, 1)]) (some 0) none =
      Except.error Err.invalidCapConfiguration :=
  ⟨by decide, cap_nonpositive_err 1 1 1 [(1, 1)] 0 none (by decide)⟩

/-- Claim C10: the shape validators accept the empty path (both the
bare empty list and a collection containing an empty path), yet
`add_step` — in both the path and the sequence module — fails with
`IndexError` on exactly those accepted inputs when it reads the last
element of the empty path. -/
theorem validators_accept_empty_but_add_step_fails :
    path_create.is_list_of_coordinate_tuples (PyVal.list []) = true ∧
    path_create.is_list_of_lists_of_coordinate_tuples
      (PyVal.list [PyVal.list []]) = true ∧
    path_create.add_step (PyVal.list []) = Except.error Err.indexError ∧
    path_create.add_step (PyVal.list [PyVal.list []]) =
      Except.error Err.indexError ∧
    sequence_create.add_step (PyVal.list []) = Except.error Err.indexError ∧
    sequence_create.add_step (PyVal.list [PyVal.list []]) =
      Except.error Err.indexError :=
  ⟨rfl, rfl, rfl, rfl, rfl, rfl⟩

/-- Claim C5, counterexample: for the empty generation (`n = 0`
non-empty input paths) `add_step` does not return the `8 * 0 = 0`
extended paths the claim demands — the empty list is normalized to
`[[]]` by `check_and_convert` and reading the last element of the
empty path fails with `IndexError`. -/
theorem add_step_empty_gen_err :
    path_create.add_step (encGen []) = Except.error Err.indexError ∧
    path_create.add_step (encGen []) ≠ Except.ok (encGen []) := by
  refine ⟨rfl, ?_⟩
  intro h
  rw [show path_create.add_step (encGen []) = Except.error Err.indexError
    from rfl] at h
  exact Except.noConfusion h

/-- Claim C5, amended (restricted to generations with at least one
path): for a generation of `n ≥ 1` non-empty paths, `add_step`
returns exactly the concatenation, over the input paths in order, of
the 8 one-move extensions of each path in the fixed move order —
hence `8 * n` paths, grouped by parent, each one longer than and
prefixed by its parent. -/
theorem add_step_extends (g : List (List Coord)) (hne : g ≠ [])
    (hp : ∀ p ∈ g, p ≠ []) :
    path_create.add_step (encGen g) =
      Except.ok (encGen (g.flatMap extendPath)) ∧
    (g.flatMap extendPath).length = 8 * g.length ∧
    ∀ p ∈ g, (extendPath p).length = 8 ∧
      ∀ q ∈ extendPath p, q.length = p.length + 1 ∧ q.take p.length = p := by
  refine ⟨add_step_encGen g hne hp, flatMap_extendPath_length g hp, ?_⟩
  intro p hpg
  exact ⟨extendPath_length (hp p hpg), fun q hq => mem_extendPath hq⟩

/-- Claim C5 witness: the amended statement instantiated at the
one-path generation `[[(1, 1)]]`. -/
theorem add_step_extends_witness :
    (([[(1, 1)]] : List (List Coord)) ≠ []) ∧
    path_create.add_step (encGen [[(1, 1)]]) =
      Except.ok (encGen ([[(1, 1)]].flatMap extendPath)) :=
  ⟨by decide, (add_step_extends [[(1, 1)]] (by decide) (by decide)).1⟩

/-- Claim C2: when cap enforcement is active (both a target list `T`
and a positive cap `m` are provided) and at least one step is taken,
every path in the returned generation has at most `m` hits against
`T` as measured by `count_path_hit_location_list`. -/
theorem get_all_paths_cap_le (x y : Int) (k : Nat) (T : List Coord) (m : Int)
    (f : Option (List Coord → Bool)) (xs : List PyVal)
    (hk : 1 ≤ k) (hm : (0 : Int) < m)
    (h : path_create.get_all_paths x y k (some T) (some m) f =
      Except.ok (PyVal.list xs)) :
    ∀ pv ∈ xs, ∃ p, decodePath pv = some p ∧
      (path_check.count_path_hit_location_list p T : Int) ≤ m := by
  obtain ⟨j, rfl⟩ : ∃ j, k = j + 1 := ⟨k - 1, by omega⟩
  unfold path_create.get_all_paths at h
  simp only [Option.isSome_some, Bool.and_self, if_true, Option.getD_some,
    hm, if_pos, epure, ebind_ok] at h
  split at h
  case isTrue hf =>
    obtain ⟨ys, hys, hmem⟩ := run_steps_ok _ j _ _ h
    injection hys with he
    subst he
    intro pv hpv
    have hkeep := hmem pv hpv
    cases hd : decodePath pv with
    | none =>
      simp only [hd] at hkeep
      exact Bool.noConfusion hkeep
    | some p =>
      simp only [hd] at hkeep
      rw [Bool.and_eq_true] at hkeep
      exact ⟨p, rfl, of_decide_eq_true hkeep.2⟩
  case isFalse hf =>
    injection h with he
    injection he with he2
    rw [← he2]
    intro pv hpv
    exact absurd hpv (List.not_mem_nil pv)

/-- Claim C2 witness: cap enforcement at start `(1, 1)`, one step,
targets `[(3, 2)]`, cap `1`; the first returned path `[(1,1),(3,2)]`
hits the target list at most once. -/
theorem get_all_paths_cap_le_witness :
    (1 : Nat) ≤ 1 ∧ (0 : Int) < 1 ∧
    (∃ p, decodePath (encPath [(1, 1), (3, 2)]) = some p ∧
      (path_check.count_path_hit_location_list p [(3, 2)] : Int) ≤ 1) :=
  ⟨by decide, by decide,
    get_all_paths_cap_le 1 1 1 [(3, 2)] 1 none
      [encPath [(1, 1), (3, 2)], encPath [(1, 1), (3, 0)],
        encPath [(1, 1), (-1, 2)], encPath [(1, 1), (-1, 0)],
        encPath [(1, 1), (2, 3)], encPath [(1, 1), (2, -1)],
        encPath [(1, 1), (0, 3)], encPath [(1, 1), (0, -1)]]
      (by decide) (by decide) (by with_unfolding_all rfl)
      (encPath [(1, 1), (3, 2)]) (List.Mem.head _)⟩

/-- Claim C8, counterexample: the empty list is simultaneously a flat
list of coordinate tuples and a collection of such lists, and
`check_and_convert` does not return it unchanged — it applies the
flat-list rule and returns `[[]]`. -/
theorem check_and_convert_empty_counterexample :
    path_create.is_list_of_lists_of_coordinate_tuples (encGen []) = true ∧
    path_create.check_and_convert (encGen []) =
      Except.ok (PyVal.list [PyVal.list []]) ∧
    (PyVal.list [PyVal.list []]) ≠ encGen [] := by
  refine ⟨rfl, rfl, ?_⟩
  simp [encGen]

/-- Claim C8, amended (the three accepted shapes are matched in order
coordinate, flat path, collection, the earliest matching rule
winning — the empty list, which is both a flat path and a collection,
takes the flat-path rule): a coordinate `c` yields `[[c]]`, a flat
path `p` yields `[p]`, a non-empty collection is returned unchanged,
and any value matching none of the three shapes fails with
`InvalidInputShape`. -/
theorem check_and_convert_shapes :
    (∀ c : Coord, path_create.check_and_convert (encCoord c) =
      Except.ok (encGen [[c]])) ∧
    (∀ p : List Coord, path_create.check_and_convert (encPath p) =
      Except.ok (encGen [p])) ∧
    (∀ g : List (List Coord), g ≠ [] →
      path_create.check_and_convert (encGen g) = Except.ok (encGen g)) ∧
    (∀ v : PyVal, path_create.is_coordinate_tuple v = false →
      path_create.is_list_of_coordinate_tuples v = false →
      path_create.is_list_of_lists_of_coordinate_tuples v = false →
      path_create.check_and_convert v = Except.error Err.invalidInputShape) := by
  refine ⟨fun c => rfl, cac_encPath, ?_, ?_⟩
  · intro g hne
    cases g with
    | nil => exact absurd rfl hne
    | cons p t => exact cac_encGen p t
  · intro v h1 h2 h3
    unfold path_create.check_and_convert
    rw [if_neg (by simp [h1]), if_neg (by simp [h2]), if_neg (by simp [h3])]

/-- Claim C8 witness: the amended statement at a non-empty collection
(returned unchanged) and at a value of none of the accepted shapes
(rejected with `InvalidInputShape`). -/
theorem check_and_convert_shapes_witness :
    (([[(1, 1)]] : List (List Coord)) ≠ []) ∧
    path_create.check_and_convert (encGen [[(1, 1)]]) =
      Except.ok (encGen [[(1, 1)]]) ∧
    path_create.is_coordinate_tuple PyVal.other = false ∧
    path_create.is_list_of_coordinate_tuples PyVal.other = false ∧
    path_create.is_list_of_lists_of_coordinate_tuples PyVal.other = false ∧
    path_create.check_and_convert PyVal.other =
      Except.error Err.invalidInputShape :=
  ⟨by decide, check_and_convert_shapes.2.2.1 [[(1, 1)]] (by decide),
    rfl, rfl, rfl,
    check_and_convert_shapes.2.2.2 PyVal.other rfl rfl rfl⟩

lemma run_steps_fun_eq (keep : PyVal → Bool) (n : Nat) (v : PyVal) :
    path_create.run_steps keep n v = sequence_create.run_steps keep n v := by
  induction n generalizing v with
  | zero => rfl
  | succ j ih =>
    unfold path_create.run_steps sequence_create.run_steps
    rw [show sequence_create.add_step v = path_create.add_step v from rfl]
    cases hadd : path_create.add_step v with
    | error e => rfl
    | ok ext =>
      rw [ebind_ok, ebind_ok]
      cases ext with
      | list xs => exact ih _
      | int n => rfl
      | float => rfl
      | tuple xs => rfl
      | other => rfl

lemma get_all_fun_eq (x y : Int) (k : Nat) (ll : Option (List Coord))
    (mh : Option Int) (f : Option (List Coord → Bool)) :
    path_create.get_all_paths x y k ll mh f =
      sequence_create.get_all_sequences x y k ll mh f := by
  have hrs : path_create.run_steps = sequence_create.run_steps :=
    funext fun keep => funext fun n => funext fun v => run_steps_fun_eq keep n v
  have hc : path_check.count_path_hit_location_list =
      sequence_check.count_sequence_hit_location_list := rfl
  simp only [path_create.get_all_paths, sequence_create.get_all_sequences]
  rw [hrs, hc]

/-- Claim C9: the "path"-named and "sequence"-named modules are
behaviorally identical — the two enumerators agree on every input,
and so do their helpers `add_step`, `check_and_convert`,
`check_inside_bounds`, `check_in_avoided_coordinate` and the two hit
counters. -/
theorem path_sequence_equivalence :
    (∀ (x y : Int) (k : Nat) (ll : Option (List Coord)) (mh : Option Int)
        (f : Option (List Coord → Bool)),
      path_create.get_all_paths x y k ll mh f =
        sequence_create.get_all_sequences x y k ll mh f) ∧
    (∀ v : PyVal, path_create.add_step v = sequence_create.add_step v) ∧
    (∀ v : PyVal, path_create.check_and_convert v =
      sequence_create.check_and_convert v) ∧
    (∀ (p : List Coord) (a b c d : Int),
      path_check.check_inside_bounds p a b c d =
        sequence_check.check_inside_bounds p a b c d) ∧
    (∀ (p l : List Coord), path_check.check_in_avoided_coordinate p l =
      sequence_check.check_in_avoided_coordinate p l) ∧
    (∀ (p l : List Coord), path_check.count_path_hit_location_list p l =
      sequence_check.count_sequence_hit_location_list p l) :=
  ⟨get_all_fun_eq, fun _ => rfl, fun _ => rfl,
    fun _ _ _ _ _ => rfl, fun _ _ => rfl, fun _ _ => rfl⟩
